import Mathlib

/-!
Verification of the monuments web server's category and ordering engine

Shallow embedding of the engine logic of `dynamic_server.mjs`: the
chronological comparator `sortNewToOld`, the derived category key lists
(president / state / year), record selection per dimension, wrap-around
previous/next neighbor computation, and the cumulative timeline chart of
the home route.

Modelling conventions:
* JS strings are Lean `String`s; helper operations (trim, split, substring
  search, `Number()` coercion) are defined over `List Char` and restricted
  to the ASCII fragment the data uses (documented at each definition).
* `Date(y, m, d).getTime()` is modelled at day granularity (`jsDateNum`):
  the proleptic-Gregorian day number of the date JS would construct,
  including the two-digit-year rule (0 ≤ y ≤ 99 is read as 1900 + y) and
  month/day overflow normalization.  The server only compares differences
  of `getTime` values, whose sign the day number preserves.
* SQL queries appearing in the routes are modelled as list operations over
  an in-memory table snapshot (`List Monument`), with SQLite semantics:
  `DISTINCT`/`ORDER BY` keep one copy of each value sorted ascending with
  NULL first, `=` is exact (binary) comparison, and `LIKE` is
  ASCII-case-insensitive containment for patterns of the shape `%key%`
  (the routes never put wildcard characters in `key`).
* A database NULL in a column is an `Option.none` field value.
-/

/-- Whether `c` is an ASCII whitespace character (the fragment of the JS
`trim`/`Number` whitespace set that the data can contain). -/
def isWS (c : Char) : Bool := c = ' ' ∨ c = '\t' ∨ c = '\n' ∨ c = '\r'

/-- JS `String.prototype.trim`, over char lists: drop whitespace from both ends. -/
def trimChars (cs : List Char) : List Char :=
  ((cs.dropWhile isWS).reverse.dropWhile isWS).reverse

/-- JS `String.prototype.split(sep)` for a one-character separator, over char
lists.  `splitOnChar sep [] = [[]]`, matching `"".split(sep) = [""]`. -/
def splitOnChar (sep : Char) : List Char → List (List Char)
  | [] => [[]]
  | c :: rest =>
    if c = sep then [] :: splitOnChar sep rest
    else
      match splitOnChar sep rest with
      | [] => [[c]]
      | p :: ps => (c :: p) :: ps

/-- Prefix test: `startsWithChars hay sub` holds when `sub` is a prefix of `hay`. -/
def startsWithChars : List Char → List Char → Bool
  | _, [] => true
  | [], _ :: _ => false
  | h :: hs, s :: ss => h = s && startsWithChars hs ss

/-- Substring test: `containsChars hay sub` holds when `sub` occurs contiguously in `hay`
(JS `String.prototype.includes`, over char lists). -/
def containsChars : List Char → List Char → Bool
  | hay, sub =>
    if startsWithChars hay sub then true
    else match hay with
      | [] => false
      | _ :: hs => containsChars hs sub

/-- JS `a.includes(b)` on strings: case-sensitive substring containment. -/
def jsIncludes (a b : String) : Bool := containsChars a.toList b.toList

/-- Lower-case an ASCII letter, leave everything else unchanged (SQLite's
`LIKE` folds exactly the ASCII range). -/
def asciiLower (c : Char) : Char :=
  if 'A' ≤ c ∧ c ≤ 'Z' then Char.ofNat (c.toNat + 32) else c

/-- SQLite `col LIKE '%key%'` for a `key` containing no wildcard characters:
ASCII-case-insensitive substring containment of `key` in `s`. -/
def sqlLikeContains (s key : String) : Bool :=
  containsChars (s.toList.map asciiLower) (key.toList.map asciiLower)

/-- The digits of `cs` read as a natural number; `none` unless `cs` is a
nonempty all-digit list. -/
def parseDigits (cs : List Char) : Option Nat :=
  if cs ≠ [] ∧ cs.all Char.isDigit then
    some (cs.foldl (fun acc c => 10 * acc + (c.toNat - 48)) 0)
  else none

/-- JS `Number(s)` for a string, restricted to the integer-numeral fragment the
dataset uses: whitespace-trimmed; empty ⇒ `0`; optionally signed digit string ⇒
its value; anything else ⇒ `none` (= NaN). -/
def jsNumberChars (cs : List Char) : Option Int :=
  match trimChars cs with
  | [] => some 0
  | '-' :: rest => (parseDigits rest).map (fun n => -(n : Int))
  | '+' :: rest => (parseDigits rest).map (fun n => (n : Int))
  | t => (parseDigits t).map (fun n => (n : Int))

/-- JS `Number(x)` where `x` is a string or `undefined` (`none`):
`Number(undefined)` is NaN (`none`). -/
def jsNumber? : Option String → Option Int
  | none => none
  | some s => jsNumberChars s.toList

/-- JS `x || d` for a numeric `x` that may be NaN (`none`): NaN and `0` are
falsy, every other number is returned unchanged. -/
def jsOr (x : Option Int) (d : Int) : Int :=
  match x with
  | none => d
  | some v => if v = 0 then d else v

/-- Leap year in the proleptic Gregorian calendar (what JS `Date` uses). -/
def isLeap (y : Int) : Bool := y % 4 = 0 ∧ (y % 100 ≠ 0 ∨ y % 400 = 0)

/-- Days in the months strictly before 0-based month `m` of a non-leap year. -/
def daysBeforeMonth : Nat → Nat
  | 0 => 0 | 1 => 31 | 2 => 59 | 3 => 90 | 4 => 120 | 5 => 151
  | 6 => 181 | 7 => 212 | 8 => 243 | 9 => 273 | 10 => 304 | _ => 334

/-- Day number (proleptic Gregorian, relative to 0000-01-01) of year `y`,
0-based month `m ∈ [0,11]`, 1-based day-of-month `d` (`d` outside the month
overflows linearly, as JS `Date` does). -/
def daysFromCivil (y : Int) (m : Nat) (d : Int) : Int :=
  365 * y + ((y - 1).fdiv 4 - (y - 1).fdiv 100 + (y - 1).fdiv 400)
    + daysBeforeMonth m + (if isLeap y ∧ 2 ≤ m then 1 else 0) + (d - 1)

/-- The linearized instant of JS `new Date(y, m, d)` (0-based month `m`, both
`m` and `d` arbitrary integers), at day granularity.  Implements the two JS
`Date` constructor rules the server can hit: a year in `[0, 99]` is read as
`1900 + y`, and month overflow moves into neighboring years (`m` is normalized
by floored division). -/
def jsDateNum (y m d : Int) : Int :=
  let yy := if 0 ≤ y ∧ y ≤ 99 then 1900 + y else y
  daysFromCivil (yy + m.fdiv 12) (m.emod 12).toNat d

/-- A row of the `monuments` table, restricted to the columns the engine logic
reads (the remaining columns are only echoed into rendered HTML).  `none`
models a database NULL. -/
structure Monument where
  pres_or_congress : String
  states : String
  date : Option String
  year : Option Int
  deriving Repr, DecidableEq

/-- JS `String(r.date || "")` : a NULL date renders as the empty string. -/
def dateStringOf (r : Monument) : String := r.date.getD ""

/-- JS `Number(r.year) || 0` : the year column coerced to a number, with NULL
(`Number(null) = 0`) and `0` both collapsing to `0`. -/
def yearNum (r : Monument) : Int := r.year.getD 0

/-- The fragments of the record's `date` column split on `"/"`
(`String(r.date || "").split("/")`). -/
def dateParts (r : Monument) : List String :=
  (splitOnChar '/' (dateStringOf r).toList).map (fun cs => String.mk cs)

/-- JS `Number(mm) || 1` : the month fragment of the date, defaulting to January
when the fragment is missing, empty, or unparseable. -/
def monthNum (r : Monument) : Int := jsOr (jsNumber? ((dateParts r).get? 0)) 1

/-- JS `Number(dd) || 1` : the day fragment of the date, defaulting to 1 when the
fragment is missing, empty, or unparseable. -/
def dayNum (r : Monument) : Int := jsOr (jsNumber? ((dateParts r).get? 1)) 1

/-- The linearized instant `new Date(y, m - 1, d).getTime()` computed by the
server's comparator (`dynamic_server.mjs:434-444`), at day granularity. -/
def sortKey (r : Monument) : Int := jsDateNum (yearNum r) (monthNum r - 1) (dayNum r)

/-- The comparator `sortNewToOld` of `dynamic_server.mjs:434-444`:
`parse(b) - parse(a)`, so a negative result puts the newer record first. -/
def sortNewToOld (a b : Monument) : Int := sortKey b - sortKey a

/-- The ordering `a` before `b` that `Array.prototype.sort(sortNewToOld)`
establishes: the comparator is nonpositive, i.e. `b`'s instant is at most
`a`'s. -/
def newFirst (a b : Monument) : Prop := sortKey b ≤ sortKey a

instance : DecidableRel newFirst := fun a b => Int.decLe (sortKey b) (sortKey a)

instance : IsTotal Monument newFirst :=
  ⟨fun a b => (le_total (sortKey b) (sortKey a)).elim Or.inl Or.inr⟩

instance : IsTrans Monument newFirst :=
  ⟨fun _ _ _ h1 h2 => le_trans h2 h1⟩

/-- JS `data.sort(sortNewToOld)` : stable sort, newest first.  JS `sort` with a
consistent comparator produces the stable sorted permutation, which insertion
sort computes. -/
def sortRecordsNewToOld (l : List Monument) : List Monument :=
  List.insertionSort newFirst l

/-- Lexicographic comparison of char lists by code point — what the JS default
`Array.prototype.sort()` comparison does on the dataset's (BMP) strings. -/
def lexLe : List Char → List Char → Bool
  | [], _ => true
  | _ :: _, [] => false
  | a :: as, b :: bs => if a = b then lexLe as bs else decide (a < b)

/-- The JS default string sort order: case-sensitive lexicographic. -/
def strLe (a b : String) : Bool := lexLe a.toList b.toList

/-- Relation form of `strLe` for `List.insertionSort`. -/
def strLeP (a b : String) : Prop := strLe a b = true

instance : DecidableRel strLeP := fun a b => instDecidableEqBool (strLe a b) true

/-- Insert each element into a JS `Set` in order, keeping the first occurrence;
`seen` is the set content so far. -/
def jsSetDedupAux {α : Type} [DecidableEq α] (seen : List α) : List α → List α
  | [] => []
  | x :: xs =>
    if x ∈ seen then jsSetDedupAux seen xs
    else x :: jsSetDedupAux (seen ++ [x]) xs

/-- JS `[...new Set(l)]` : `Set` iteration keeps the first occurrence of each
element in insertion order. -/
def jsSetDedup {α : Type} [DecidableEq α] (l : List α) : List α :=
  jsSetDedupAux [] l

/-- The derived president key list
(`[...new Set(all.map(r => r.pres_or_congress))].filter(n => !String(n).includes("Congress")).sort()`,
`dynamic_server.mjs:500-502`): distinct owner values, legislative entries
removed, sorted ascending (JS default string sort = code-unit lexicographic =
Lean's `String` order on the ASCII data). -/
def presidentKeys (records : List Monument) : List String :=
  List.insertionSort strLeP
    ((jsSetDedup (records.map (fun r => r.pres_or_congress))).filter
      (fun n => ¬ jsIncludes n "Congress"))

/-- The comma-split, trimmed, nonempty fragments of one record's `states`
column (`String(r.states || "").split(",").map(s => s.trim()).filter(Boolean)`). -/
def stateFragments (s : String) : List String :=
  (((splitOnChar ',' s.toList).map trimChars).filter (fun cs => cs ≠ [])).map
    (fun cs => String.mk cs)

/-- The derived state key list (`dynamic_server.mjs:595-600`): union of all
records' fragments, deduplicated, sorted ascending. -/
def stateKeys (records : List Monument) : List String :=
  List.insertionSort strLeP
    (jsSetDedup (records.flatMap (fun r => stateFragments r.states)))

/-- SQLite `ORDER BY` comparison on a nullable integer column: NULL sorts
before every value. -/
def sqliteLe (a b : Option Int) : Bool :=
  match a, b with
  | none, _ => true
  | some _, none => false
  | some x, some y => x ≤ y

/-- Relation form of `sqliteLe` for `List.insertionSort`. -/
def sqliteLeP (a b : Option Int) : Prop := sqliteLe a b = true

instance : DecidableRel sqliteLeP := fun a b => instDecidableEqBool (sqliteLe a b) true

instance : IsTotal (Option Int) sqliteLeP :=
  ⟨fun a b => by
    unfold sqliteLeP sqliteLe
    match a, b with
    | none, _ => exact Or.inl rfl
    | some _, none => exact Or.inr rfl
    | some x, some y =>
      rcases le_total x y with h | h
      · exact Or.inl (by simpa using h)
      · exact Or.inr (by simpa using h)⟩

instance : IsTrans (Option Int) sqliteLeP :=
  ⟨fun a b c h1 h2 => by
    unfold sqliteLeP sqliteLe at *
    match a, b, c with
    | none, _, _ => rfl
    | some _, none, _ => exact absurd h1 (by simp)
    | some _, some _, none => exact absurd h2 (by simp)
    | some x, some y, some z =>
      simp only [decide_eq_true_eq] at *
      exact le_trans h1 h2⟩

/-- The year key list of the `/years` route
(`SELECT DISTINCT year FROM monuments ORDER BY year`,
`dynamic_server.mjs:643-654`): one copy of each year column value, sorted
ascending with NULL first.  No value is excluded. -/
def yearKeys (records : List Monument) : List (Option Int) :=
  List.insertionSort sqliteLeP (jsSetDedup (records.map (fun r => r.year)))

/-- SQL `SELECT * FROM monuments WHERE pres_or_congress = ?` : exact (binary)
equality against the owner column. -/
def presidentFilter (records : List Monument) (k : String) : List Monument :=
  records.filter (fun r => r.pres_or_congress = k)

/-- SQL `SELECT * FROM monuments WHERE states LIKE ?` with pattern `'%' + k + '%'` :
ASCII-case-insensitive substring containment. -/
def stateFilter (records : List Monument) (k : String) : List Monument :=
  records.filter (fun r => sqlLikeContains r.states k)

/-- SQL `SELECT * FROM monuments WHERE year = ?` : exact equality against the year
column; a NULL year matches nothing. -/
def yearFilter (records : List Monument) (y : Int) : List Monument :=
  records.filter (fun r => r.year = some y)

/-- Engine operation `selectRecords` for the president dimension: the `/president/:pres_id`
route's query followed by `data.sort(sortNewToOld)`. -/
def selectPresident (records : List Monument) (k : String) : List Monument :=
  sortRecordsNewToOld (presidentFilter records k)

/-- Engine operation `selectRecords` for the state dimension: the `/state/:abbr` route's query
followed by `data.sort(sortNewToOld)`. -/
def selectState (records : List Monument) (k : String) : List Monument :=
  sortRecordsNewToOld (stateFilter records k)

/-- Engine operation `selectRecords` for the year dimension: the `/year/:year` route's query
followed by `data.sort(sortNewToOld)`. -/
def selectYear (records : List Monument) (y : Int) : List Monument :=
  sortRecordsNewToOld (yearFilter records y)

/-- JS `Array.prototype.indexOf` : the first index of `x` in `l`, or `-1`. -/
def jsIndexOf {α : Type} [DecidableEq α] (l : List α) (x : α) : Int :=
  if x ∈ l then (l.indexOf x : Int) else -1

/-- JS array subscript `l[i]` for an integer index: `undefined` (`none`) when
out of range. -/
def jsGetElem {α : Type} (l : List α) (i : Int) : Option α :=
  if i < 0 then none else l[i.toNat]?

/-- The wrap-around previous/next computation every detail route performs
(`dynamic_server.mjs:504-506`, `602-604`, `679-681`):
`idx = keys.indexOf(key)`, then
`(keys[(idx - 1 + n) % n], keys[(idx + 1) % n])` with JS `%` (truncated
remainder, `Int.tmod`). -/
def neighbors {α : Type} [DecidableEq α] (ks : List α) (key : α) : Option α × Option α :=
  (jsGetElem ks ((jsIndexOf ks key - 1 + ks.length).tmod ks.length),
   jsGetElem ks ((jsIndexOf ks key + 1).tmod ks.length))

/-- The "next" half of `neighbors`. -/
def nextKey {α : Type} [DecidableEq α] (ks : List α) (key : α) : Option α :=
  (neighbors ks key).2

/-- Follow "next" `m` times starting from `key`. -/
def nextIter {α : Type} [DecidableEq α] (ks : List α) : Nat → α → Option α
  | 0, key => some key
  | m + 1, key =>
    match nextKey ks key with
    | none => none
    | some k2 => nextIter ks m k2

/-- What a route handler sends: a 404 text error, a rendered template (payload
beyond the template name and page title is display-only and abstracted), or a
redirect. -/
inductive RouteResponse where
  | notFound (msg : String)
  | render (template : String) (title : String)
  | redirect (target : String)
  deriving Repr, DecidableEq

/-- The HTTP status code of each response shape
(`res.status(404)` / `res.status(200)` / `res.redirect`). -/
def statusOf : RouteResponse → Nat
  | .notFound _ => 404
  | .render _ _ => 200
  | .redirect _ => 302

/-- The 404 body of `/president/:pres_id` when no row matches. -/
def presNotFoundMsg (k : String) : String :=
  "Error: no data for president \"" ++ k ++ "\""

/-- The 404 body of `/state/:abbr` when no row matches. -/
def stateNotFoundMsg (k : String) : String :=
  "Error: no data for state \"" ++ k ++ "\""

/-- The 404 body of `/year/:year` when no row matches. -/
def yearNotFoundMsg (y : Int) : String :=
  "Error: no data for year " ++ toString y

/-- The `/president/:pres_id` handler (`dynamic_server.mjs:482-542`), reduced
to its response decision: empty query result ⇒ 404 with the president message,
otherwise render `president.html` titled by the key. -/
def presidentPage (records : List Monument) (presId : String) : RouteResponse :=
  if presidentFilter records presId = [] then .notFound (presNotFoundMsg presId)
  else .render "president.html" presId

/-- The `/state/:abbr` handler (`dynamic_server.mjs:579-633`), reduced to its
response decision. -/
def statePage (records : List Monument) (abbr : String) : RouteResponse :=
  if stateFilter records abbr = [] then .notFound (stateNotFoundMsg abbr)
  else .render "state.html" ("State: " ++ abbr)

/-- The `/year/:year` handler (`dynamic_server.mjs:661-710`), reduced to its
response decision. -/
def yearPage (records : List Monument) (y : Int) : RouteResponse :=
  if yearFilter records y = [] then .notFound (yearNotFoundMsg y)
  else .render "year.html" ("Year: " ++ toString y)

/-- The mutable state of the `/` route's chart loop
(`dynamic_server.mjs:42-56`): `currentYear`, `accum`, and the two parallel
output arrays `years` / `yearCounts`. -/
structure TLState where
  currentYear : Int
  accum : Nat
  years : List Int
  yearCounts : List Nat
  deriving Repr, DecidableEq

/-- The body of the inner `while (currentYear < target)` loop, with an explicit
iteration budget (`fuel`) to make the recursion structural; the loop guard is
kept verbatim. -/
def fillToFuel (target : Int) : Nat → TLState → TLState
  | 0, st => st
  | fuel + 1, st =>
    if st.currentYear < target then
      fillToFuel target fuel
        { currentYear := st.currentYear + 1
          accum := st.accum
          years := st.years ++ [st.currentYear + 1]
          yearCounts := st.yearCounts ++ [st.accum] }
    else st

/-- The inner `while (currentYear < entry.year)` loop: push each intermediate
year with the current running total.  It runs exactly
`max 0 (target - currentYear)` iterations, which is the budget supplied. -/
def fillTo (st : TLState) (target : Int) : TLState :=
  fillToFuel target (target - st.currentYear).toNat st

/-- JS `yearCounts[yearCounts.length - 1] = v` : overwrite the last element; on an
empty array the JS assignment targets index `-1`, a non-index property, and the
array stays empty. -/
def setLast (l : List Nat) (v : Nat) : List Nat :=
  match l with
  | [] => []
  | _ => l.dropLast ++ [v]

/-- One iteration of `for (const entry of data)`: fill intermediate years when
a new year starts (`years.length === 0 || years.at(-1) != entry.year`), then
`accum++` and overwrite the last count. -/
def tlStep (st : TLState) (y : Int) : TLState :=
  let st1 := if st.years.getLast? ≠ some y then fillTo st y else st
  { st1 with accum := st1.accum + 1, yearCounts := setLast st1.yearCounts (st1.accum + 1) }

/-- Run the chart loop over the (already sorted) year sequence, starting from
`currentYear = data[0].year - 1`, and pair the two parallel output arrays. -/
def timelineLoop (ys : List Int) : List (Int × Nat) :=
  match ys with
  | [] => []
  | y0 :: _ =>
    let fin := ys.foldl tlStep
      { currentYear := y0 - 1, accum := 0, years := [], yearCounts := [] }
    fin.years.zip fin.yearCounts

/-- The `getTime` key of the comparator in scope at the `/` route
(`dynamic_server.mjs:263-269`, the later declaration of `sortNewToOld`, which
under JS function hoisting shadows the defaulted one): no defaults, so an
unparseable month or a missing day fragment yields NaN (`none`); a NULL date
would make `.split` throw before any key is produced and is excluded before
this function is used. -/
def legacyKey (r : Monument) : Option Int :=
  match r.date with
  | none => none
  | some d =>
    let parts := (splitOnChar '/' d.toList).map (fun cs => String.mk cs)
    match jsNumberChars (parts.headD "").toList, jsNumber? (parts.get? 1) with
    | some m, some dd => some (jsDateNum (yearNum r) (m - 1) dd)
    | _, _ => none

/-- The ordering `a` before `b` established by `data.sort(sortOldToNew)`:
comparator value `key a - key b` is nonpositive; a NaN comparator value is
treated as "equal" (V8 keeps the relative order). -/
def oldFirstB (a b : Monument) : Bool :=
  match legacyKey a, legacyKey b with
  | some x, some y => x ≤ y
  | _, _ => true

/-- Relation form of `oldFirstB` for `List.insertionSort`. -/
def oldFirst (a b : Monument) : Prop := oldFirstB a b = true

instance : DecidableRel oldFirst := fun a b => instDecidableEqBool (oldFirstB a b) true

/-- JS `entry.year` as consumed by the chart loop; every entry has passed the
`year > 0` SQL filter, so the column is a non-NULL positive integer. -/
def rawYear (r : Monument) : Int := r.year.getD 0

/-- The `/` route's chart computation (`dynamic_server.mjs:37-71`):
`SELECT date, year FROM monuments WHERE year > 0`, sort ascending with
`sortOldToNew`, then the cumulative loop.  `none` models the handler throwing:
on an empty result `data[0].year` is a property access on `undefined`, and
when at least two rows are sorted a NULL `date` makes the comparator's
`.split` throw. -/
def cumulativeTimeline (records : List Monument) : Option (List (Int × Nat)) :=
  let data := records.filter (fun r => 0 < rawYear r)
  match data with
  | [] => none
  | [r] => some (timelineLoop [rawYear r])
  | _ =>
    if data.any (fun r => r.date.isNone) then none
    else some (timelineLoop ((List.insertionSort oldFirst data).map rawYear))

/-- The years of the filtered rows in the order the `/` route processes them. -/
def sortedYears (records : List Monument) : List Int :=
  (List.insertionSort oldFirst (records.filter (fun r => 0 < rawYear r))).map rawYear

/-- The list `[a, a+1, ..., a+n-1]`. -/
def intRange (a : Int) (n : Nat) : List Int :=
  (List.range n).map (fun k : Nat => a + (k : Int))

/-- How many entries of `ys` are at most `y`. -/
def countLe (ys : List Int) (y : Int) : Nat :=
  (ys.filter (fun z => z ≤ y)).length

theorem jsGetElem_nonneg {α : Type} (l : List α) (i : Int) (h : 0 ≤ i) :
    jsGetElem l i = l[i.toNat]? := by
  unfold jsGetElem
  rw [if_neg (by omega)]

theorem jsIndexOf_of_mem {α : Type} [DecidableEq α] {l : List α} {x : α} (h : x ∈ l) :
    jsIndexOf l x = (l.indexOf x : Int) := by
  unfold jsIndexOf
  rw [if_pos h]

theorem jsIndexOf_of_not_mem {α : Type} [DecidableEq α] {l : List α} {x : α} (h : x ∉ l) :
    jsIndexOf l x = -1 := by
  unfold jsIndexOf
  rw [if_neg h]

theorem indexOf_getElem_nodup {α : Type} [DecidableEq α] {l : List α} (hnd : l.Nodup)
    {i : Nat} (hi : i < l.length) : l.indexOf l[i] = i := by
  have hmem : l[i] ∈ l := List.getElem_mem hi
  have hlt : l.indexOf l[i] < l.length := List.indexOf_lt_length.2 hmem
  have hv : l[l.indexOf l[i]] = l[i] := List.getElem_indexOf hlt
  exact (List.Nodup.getElem_inj_iff hnd).1 hv

theorem natCast_emod_natCast (a b : Nat) : (a : Int) % (b : Int) = ((a % b : Nat) : Int) := by
  push_cast
  ring

theorem natCast_tmod_natCast (a b : Nat) : ((a : Int)).tmod (b : Int) = ((a % b : Nat) : Int) := by
  rw [Int.tmod_eq_emod (by omega) (by omega)]
  exact natCast_emod_natCast a b

theorem neighbors_getElem_nodup {α : Type} [DecidableEq α] {ks : List α} (hnd : ks.Nodup)
    {i : Nat} (hi : i < ks.length) :
    neighbors ks ks[i] =
      (ks[(i + ks.length - 1) % ks.length]?, ks[(i + 1) % ks.length]?) := by
  have hn : 0 < ks.length := Nat.lt_of_le_of_lt (Nat.zero_le i) hi
  have hmem : ks[i] ∈ ks := List.getElem_mem hi
  unfold neighbors
  rw [jsIndexOf_of_mem hmem, indexOf_getElem_nodup hnd hi]
  have hd1 : ((i : Int) - 1 + ks.length) = ((i + ks.length - 1 : Nat) : Int) := by omega
  have hd2 : ((i : Int) + 1) = ((i + 1 : Nat) : Int) := by omega
  rw [hd1, hd2, natCast_tmod_natCast, natCast_tmod_natCast,
    jsGetElem_nonneg _ _ (by omega), jsGetElem_nonneg _ _ (by omega)]
  exact rfl

theorem nextKey_getElem_nodup {α : Type} [DecidableEq α] {ks : List α} (hnd : ks.Nodup)
    {i : Nat} (hi : i < ks.length) :
    nextKey ks ks[i] = ks[(i + 1) % ks.length]? := by
  unfold nextKey
  rw [neighbors_getElem_nodup hnd hi]

theorem nextIter_getElem_nodup {α : Type} [DecidableEq α] {ks : List α} (hnd : ks.Nodup)
    (m : Nat) {i : Nat} (hi : i < ks.length) :
    nextIter ks m ks[i] = ks[(i + m) % ks.length]? := by
  have hn : 0 < ks.length := Nat.lt_of_le_of_lt (Nat.zero_le i) hi
  induction m generalizing i with
  | zero =>
    rw [nextIter, List.getElem?_eq_getElem (by simpa [Nat.mod_eq_of_lt hi] using hi)]
    simp [Nat.mod_eq_of_lt hi]
  | succ m ih =>
    have h2 : (i + 1) % ks.length < ks.length := Nat.mod_lt _ hn
    have hnk : nextKey ks ks[i] = some ks[(i + 1) % ks.length] := by
      rw [nextKey_getElem_nodup hnd hi, List.getElem?_eq_getElem h2]
    have hidx : ((i + 1) % ks.length + m) % ks.length = (i + (m + 1)) % ks.length := by
      rw [Nat.mod_add_mod]
      congr 1
      omega
    rw [nextIter, hnk]
    exact hidx ▸ ih h2

/-- C1: for a duplicate-free key list `ks` holding `key` at index `i`,
`neighbors` returns the elements at `(i - 1 + n) mod n` and `(i + 1) mod n`;
a single-element list yields `(key, key)`, and following "next" `n` times
returns to `key`. -/
theorem claim1_neighbors (ks : List String) (key : String) (i : Nat)
    (hnd : ks.Nodup) (hi : i < ks.length) (hkey : ks[i]? = some key) :
    neighbors ks key =
        (ks[(((i : Int) - 1 + ks.length) % ks.length).toNat]?,
         ks[(((i : Int) + 1) % ks.length).toNat]?)
      ∧ (ks.length = 1 → neighbors ks key = (some key, some key))
      ∧ nextIter ks ks.length key = some key := by
  have hget : ks[i] = key := by
    rw [List.getElem?_eq_getElem hi] at hkey
    exact Option.some.inj hkey
  have hn : 0 < ks.length := Nat.lt_of_le_of_lt (Nat.zero_le i) hi
  subst hget
  refine ⟨?_, ?_, ?_⟩
  · rw [neighbors_getElem_nodup hnd hi]
    have e1 : (((i : Int) - 1 + ks.length) % ks.length).toNat =
        (i + ks.length - 1) % ks.length := by
      have hd : ((i : Int) - 1 + ks.length) = ((i + ks.length - 1 : Nat) : Int) := by omega
      rw [hd, natCast_emod_natCast]
      omega
    have e2 : (((i : Int) + 1) % ks.length).toNat = (i + 1) % ks.length := by
      have hd : ((i : Int) + 1) = ((i + 1 : Nat) : Int) := by omega
      rw [hd, natCast_emod_natCast]
      omega
    rw [e1, e2]
  · intro h1
    have hi0 : i = 0 := by omega
    subst hi0
    rw [neighbors_getElem_nodup hnd hi]
    have h0 : ks[0]? = some ks[0] := List.getElem?_eq_getElem (by omega)
    simp [h1, h0]
  · rw [nextIter_getElem_nodup hnd ks.length hi]
    have e3 : (i + ks.length) % ks.length = i := by
      rw [Nat.add_mod_right]
      exact Nat.mod_eq_of_lt hi
    rw [e3, List.getElem?_eq_getElem hi]

/-- C1 witness: the three-element list `["Ann", "Bob", "Cal"]` at key `"Bob"`. -/
theorem claim1_neighbors_witness :
    nextIter ["Ann", "Bob", "Cal"] 3 "Bob" = some "Bob" :=
  (claim1_neighbors ["Ann", "Bob", "Cal"] "Bob" 1 (by decide) (by decide) (by decide)).2.2

/-- C10: when the requested key is absent from a derived key list of length
`n ≥ 2`, `indexOf` yields `-1` and the computation still returns defined
values: previous is the element at index `n - 2` and next the element at
index `0`. -/
theorem claim10_neighbors_absent (ks : List String) (key : String)
    (h2 : 2 ≤ ks.length) (habs : key ∉ ks) :
    neighbors ks key = (ks[ks.length - 2]?, ks[0]?)
      ∧ (neighbors ks key).1.isSome ∧ (neighbors ks key).2.isSome := by
  have hmain : neighbors ks key = (ks[ks.length - 2]?, ks[0]?) := by
    unfold neighbors
    rw [jsIndexOf_of_not_mem habs]
    have hd1 : ((-1 : Int) - 1 + ks.length) = ((ks.length - 2 : Nat) : Int) := by omega
    have hd2 : ((-1 : Int) + 1) = ((0 : Nat) : Int) := by omega
    rw [hd1, hd2, natCast_tmod_natCast, natCast_tmod_natCast,
      jsGetElem_nonneg _ _ (by omega), jsGetElem_nonneg _ _ (by omega)]
    have e1 : (ks.length - 2) % ks.length = ks.length - 2 := Nat.mod_eq_of_lt (by omega)
    have e2 : 0 % ks.length = 0 := Nat.zero_mod _
    rw [show (((ks.length - 2) % ks.length : Nat) : Int).toNat = ks.length - 2 by omega,
      show ((0 % ks.length : Nat) : Int).toNat = 0 by omega]
  refine ⟨hmain, ?_, ?_⟩
  · rw [hmain]
    rw [List.getElem?_eq_getElem (show ks.length - 2 < ks.length by omega)]
    simp
  · rw [hmain]
    rw [List.getElem?_eq_getElem (show 0 < ks.length by omega)]
    simp

/-- C10 witness: key `"Zed"` absent from `["Ann", "Bob", "Cal"]`. -/
theorem claim10_neighbors_absent_witness :
    neighbors ["Ann", "Bob", "Cal"] "Zed" =
      ((["Ann", "Bob", "Cal"] : List String)[1]?, (["Ann", "Bob", "Cal"] : List String)[0]?) :=
  (claim10_neighbors_absent ["Ann", "Bob", "Cal"] "Zed" (by decide) (by decide)).1

theorem mem_jsSetDedupAux {α : Type} [DecidableEq α] (l : List α) :
    ∀ (seen : List α) (a : α), a ∈ jsSetDedupAux seen l ↔ a ∈ l ∧ a ∉ seen := by
  induction l with
  | nil => intro seen a; simp [jsSetDedupAux]
  | cons x xs ih =>
    intro seen a
    by_cases hx : x ∈ seen
    · rw [jsSetDedupAux, if_pos hx, ih]
      constructor
      · rintro ⟨h1, h2⟩
        exact ⟨List.mem_cons_of_mem _ h1, h2⟩
      · rintro ⟨h1, h2⟩
        rcases List.mem_cons.1 h1 with h | h
        · exact absurd (h ▸ hx) h2
        · exact ⟨h, h2⟩
    · rw [jsSetDedupAux, if_neg hx]
      by_cases hax : a = x
      · subst hax
        simp [hx]
      · rw [List.mem_cons, ih]
        simp only [List.mem_append, List.mem_cons, List.mem_singleton]
        tauto

theorem mem_jsSetDedup {α : Type} [DecidableEq α] (l : List α) (a : α) :
    a ∈ jsSetDedup l ↔ a ∈ l := by
  unfold jsSetDedup
  rw [mem_jsSetDedupAux]
  simp

theorem nodup_jsSetDedupAux {α : Type} [DecidableEq α] (l : List α) :
    ∀ seen : List α, (jsSetDedupAux seen l).Nodup := by
  induction l with
  | nil => intro seen; simp [jsSetDedupAux]
  | cons x xs ih =>
    intro seen
    by_cases hx : x ∈ seen
    · rw [jsSetDedupAux, if_pos hx]
      exact ih seen
    · rw [jsSetDedupAux, if_neg hx]
      refine List.nodup_cons.2 ⟨?_, ih (seen ++ [x])⟩
      rw [mem_jsSetDedupAux]
      rintro ⟨-, h2⟩
      exact h2 (List.mem_append.2 (Or.inr (List.mem_singleton.2 rfl)))

theorem nodup_jsSetDedup {α : Type} [DecidableEq α] (l : List α) :
    (jsSetDedup l).Nodup := nodup_jsSetDedupAux l []

theorem lexLe_total : ∀ as bs : List Char, lexLe as bs = true ∨ lexLe bs as = true := by
  intro as
  induction as with
  | nil => intro bs; exact Or.inl rfl
  | cons a as ih =>
    intro bs
    cases bs with
    | nil => exact Or.inr rfl
    | cons b bs =>
      by_cases hab : a = b
      · subst hab
        rcases ih bs with h | h
        · exact Or.inl (by rw [lexLe, if_pos rfl]; exact h)
        · exact Or.inr (by rw [lexLe, if_pos rfl]; exact h)
      · rcases lt_or_gt_of_ne hab with h | h
        · exact Or.inl (by rw [lexLe, if_neg hab]; simpa using h)
        · exact Or.inr (by rw [lexLe, if_neg (Ne.symm hab)]; simpa using h)

theorem lexLe_trans : ∀ as bs cs : List Char,
    lexLe as bs = true → lexLe bs cs = true → lexLe as cs = true := by
  intro as
  induction as with
  | nil => intro bs cs _ _; rfl
  | cons a as ih =>
    intro bs cs h1 h2
    cases bs with
    | nil => exact absurd h1 (by simp [lexLe])
    | cons b bs =>
      cases cs with
      | nil => exact absurd h2 (by simp [lexLe])
      | cons c cs =>
        rw [lexLe] at h1 h2 ⊢
        by_cases hab : a = b
        · subst hab
          rw [if_pos rfl] at h1
          by_cases hbc : a = c
          · subst hbc
            rw [if_pos rfl] at h2 ⊢
            exact ih bs cs h1 h2
          · rw [if_neg hbc] at h2 ⊢
            exact h2
        · rw [if_neg hab] at h1
          have hlt1 : a < b := by simpa using h1
          by_cases hbc : b = c
          · subst hbc
            rw [if_neg hab]
            simpa using hlt1
          · rw [if_neg hbc] at h2
            have hlt2 : b < c := by simpa using h2
            have hac : a < c := lt_trans hlt1 hlt2
            rw [if_neg (ne_of_lt hac)]
            simpa using hac

instance : IsTotal String strLeP :=
  ⟨fun a b => by
    unfold strLeP strLe
    exact lexLe_total a.toList b.toList⟩

instance : IsTrans String strLeP :=
  ⟨fun a b c h1 h2 => lexLe_trans a.toList b.toList c.toList h1 h2⟩

theorem dateParts_of_none {r : Monument} (h : r.date = none) : dateParts r = [""] := by
  unfold dateParts dateStringOf
  rw [h]
  decide

theorem dateParts_of_empty {r : Monument} (h : r.date = some "") : dateParts r = [""] := by
  unfold dateParts dateStringOf
  rw [h]
  decide

theorem yearNum_of_none {r : Monument} (h : r.year = none) : yearNum r = 0 := by
  unfold yearNum
  rw [h]
  rfl

theorem monthNum_default {r : Monument}
    (h : jsNumber? ((dateParts r).get? 0) = none ∨ jsNumber? ((dateParts r).get? 0) = some 0) :
    monthNum r = 1 := by
  unfold monthNum
  rcases h with h | h <;> rw [h] <;> rfl

theorem dayNum_default {r : Monument}
    (h : jsNumber? ((dateParts r).get? 1) = none ∨ jsNumber? ((dateParts r).get? 1) = some 0) :
    dayNum r = 1 := by
  unfold dayNum
  rcases h with h | h <;> rw [h] <;> rfl

/-- C2: the comparator `sortNewToOld` is the difference of two total integer
keys and therefore never raises; the key defaults a missing or empty date to
month 1 and day 1, a falsy month/day fragment to 1, and a NULL year to 0;
sorting any record collection succeeds, producing a permutation of the input. -/
theorem claim2_comparator_total :
    (∀ a b : Monument, sortNewToOld a b = sortKey b - sortKey a)
    ∧ (∀ r : Monument, r.year = none → yearNum r = 0)
    ∧ (∀ r : Monument, r.date = none ∨ r.date = some "" →
        monthNum r = 1 ∧ dayNum r = 1 ∧ sortKey r = jsDateNum (yearNum r) 0 1)
    ∧ (∀ r : Monument,
        jsNumber? ((dateParts r).get? 0) = none ∨ jsNumber? ((dateParts r).get? 0) = some 0 →
        monthNum r = 1)
    ∧ (∀ r : Monument,
        jsNumber? ((dateParts r).get? 1) = none ∨ jsNumber? ((dateParts r).get? 1) = some 0 →
        dayNum r = 1)
    ∧ (∀ l : List Monument, (sortRecordsNewToOld l).Perm l) := by
  refine ⟨fun a b => rfl, fun r h => yearNum_of_none h, ?_, fun r h => monthNum_default h,
    fun r h => dayNum_default h, fun l => List.perm_insertionSort _ l⟩
  intro r h
  have hparts : dateParts r = [""] := by
    rcases h with h | h
    · exact dateParts_of_none h
    · exact dateParts_of_empty h
  have hm : monthNum r = 1 := monthNum_default (by rw [hparts]; right; decide)
  have hd : dayNum r = 1 := dayNum_default (by rw [hparts]; left; decide)
  refine ⟨hm, hd, ?_⟩
  unfold sortKey
  rw [hm, hd]
  norm_num

/-- C2 witness: a record with no date and no year sorts at the fully-defaulted
instant `jsDateNum 0 0 1`. -/
theorem claim2_comparator_total_witness :
    sortKey ⟨"X", "", none, none⟩ = jsDateNum 0 0 1 := by
  have h := (claim2_comparator_total.2.2.1 ⟨"X", "", none, none⟩ (Or.inl rfl)).2.2
  have hy : yearNum (⟨"X", "", none, none⟩ : Monument) = 0 :=
    claim2_comparator_total.2.1 _ rfl
  rw [h, hy]

/-- C3 counterexample: a record whose year column is `0` does contribute the
key `0` to the `/years` key list — the route's query
(`SELECT DISTINCT year FROM monuments ORDER BY year`) excludes nothing. -/
theorem claim3_counterexample :
    yearKeys [⟨"X", "", none, some 0⟩] = [some 0]
      ∧ some 0 ∈ yearKeys [⟨"X", "", none, some 0⟩] := by
  exact ⟨by decide, by decide⟩

/-- C3 amended: the year dimension consists of the distinct year column
values, sorted ascending (SQLite order, NULL first), duplicate-free, with no
exclusion of zero or falsy values; in particular a record with year `0`
contributes the key `0`. -/
theorem claim3_amended :
    (∀ (db : List Monument) (v : Option Int),
        v ∈ yearKeys db ↔ v ∈ db.map (fun r => r.year))
    ∧ (∀ db : List Monument, (yearKeys db).Sorted sqliteLeP)
    ∧ (∀ db : List Monument, (yearKeys db).Nodup)
    ∧ (∀ (db : List Monument) (r : Monument), r ∈ db → r.year = some 0 →
        some 0 ∈ yearKeys db) := by
  have hmem : ∀ (db : List Monument) (v : Option Int),
      v ∈ yearKeys db ↔ v ∈ db.map (fun r => r.year) := by
    intro db v
    unfold yearKeys
    rw [List.mem_insertionSort, mem_jsSetDedup]
  refine ⟨hmem, ?_, ?_, ?_⟩
  · intro db
    exact List.sorted_insertionSort sqliteLeP _
  · intro db
    exact (List.perm_insertionSort _ _).nodup_iff.2 (nodup_jsSetDedup _)
  · intro db r hr hy
    rw [hmem]
    exact List.mem_map.2 ⟨r, hr, hy⟩

/-- C3 amended witness: a single year-0 record yields the key list `[some 0]`. -/
theorem claim3_amended_witness :
    some 0 ∈ yearKeys [⟨"X", "", none, some 0⟩] :=
  claim3_amended.2.2.2 [⟨"X", "", none, some 0⟩] _ (List.mem_singleton.2 rfl) rfl

theorem string_append_data (a b : String) : (a ++ b).data = a.data ++ b.data := rfl

theorem char19_presNotFoundMsg (k : String) : (presNotFoundMsg k).data[19]? = some 'p' := by
  unfold presNotFoundMsg
  rw [string_append_data, string_append_data]
  rw [List.getElem?_append_left]
  · rw [List.getElem?_append_left (by decide)]
    decide
  · rw [List.length_append]
    have : ("Error: no data for president \"").data.length = 30 := by decide
    omega

theorem char19_stateNotFoundMsg (k : String) : (stateNotFoundMsg k).data[19]? = some 's' := by
  unfold stateNotFoundMsg
  rw [string_append_data, string_append_data]
  rw [List.getElem?_append_left]
  · rw [List.getElem?_append_left (by decide)]
    decide
  · rw [List.length_append]
    have : ("Error: no data for state \"").data.length = 26 := by decide
    omega

theorem char19_yearNotFoundMsg (y : Int) : (yearNotFoundMsg y).data[19]? = some 'y' := by
  unfold yearNotFoundMsg
  rw [string_append_data]
  rw [List.getElem?_append_left (by decide)]
  decide

theorem ne_of_char19 {a b : String} {ca cb : Char}
    (ha : a.data[19]? = some ca) (hb : b.data[19]? = some cb) (hc : ca ≠ cb) : a ≠ b := by
  intro e
  rw [e, hb] at ha
  exact hc (Option.some.inj ha).symm

/-- C9: whenever the per-dimension query returns no rows, the route responds
with HTTP 404 carrying the dimension-specific message (never a rendered page),
and the three messages are pairwise distinct. -/
theorem claim9_empty_result_404 :
    (∀ (db : List Monument) (k : String), presidentFilter db k = [] →
        presidentPage db k = .notFound (presNotFoundMsg k)
          ∧ statusOf (presidentPage db k) = 404)
    ∧ (∀ (db : List Monument) (k : String), stateFilter db k = [] →
        statePage db k = .notFound (stateNotFoundMsg k)
          ∧ statusOf (statePage db k) = 404)
    ∧ (∀ (db : List Monument) (y : Int), yearFilter db y = [] →
        yearPage db y = .notFound (yearNotFoundMsg y)
          ∧ statusOf (yearPage db y) = 404)
    ∧ (∀ (k : String) (y : Int),
        presNotFoundMsg k ≠ stateNotFoundMsg k
          ∧ presNotFoundMsg k ≠ yearNotFoundMsg y
          ∧ stateNotFoundMsg k ≠ yearNotFoundMsg y)
    ∧ (∀ (m t ti : String), RouteResponse.notFound m ≠ RouteResponse.render t ti) := by
  refine ⟨?_, ?_, ?_, ?_, ?_⟩
  · intro db k h
    unfold presidentPage
    rw [if_pos h]
    exact ⟨rfl, rfl⟩
  · intro db k h
    unfold statePage
    rw [if_pos h]
    exact ⟨rfl, rfl⟩
  · intro db y h
    unfold yearPage
    rw [if_pos h]
    exact ⟨rfl, rfl⟩
  · intro k y
    exact ⟨ne_of_char19 (char19_presNotFoundMsg k) (char19_stateNotFoundMsg k) (by decide),
      ne_of_char19 (char19_presNotFoundMsg k) (char19_yearNotFoundMsg y) (by decide),
      ne_of_char19 (char19_stateNotFoundMsg k) (char19_yearNotFoundMsg y) (by decide)⟩
  · intro m t ti
    exact fun h => RouteResponse.noConfusion h

/-- C9 witness: the empty table and key `"x"` / year `0`. -/
theorem claim9_empty_result_404_witness :
    presidentPage [] "x" = .notFound (presNotFoundMsg "x")
      ∧ statusOf (yearPage [] 0) = 404 :=
  ⟨(claim9_empty_result_404.1 [] "x" rfl).1, (claim9_empty_result_404.2.2.1 [] 0 rfl).2⟩

/-- C5: the president key list consists of exactly the owner-column values that
do not contain the marker `"Congress"`, is sorted ascending (case-sensitive)
and duplicate-free, and no returned key contains the marker. -/
theorem claim5_president_keys :
    (∀ (db : List Monument) (k : String),
        k ∈ presidentKeys db ↔
          k ∈ db.map (fun r => r.pres_or_congress) ∧ jsIncludes k "Congress" = false)
    ∧ (∀ db : List Monument, (presidentKeys db).Sorted strLeP)
    ∧ (∀ db : List Monument, (presidentKeys db).Nodup)
    ∧ (∀ (db : List Monument) (k : String), k ∈ presidentKeys db →
        ¬ jsIncludes k "Congress" = true) := by
  have hmem : ∀ (db : List Monument) (k : String),
      k ∈ presidentKeys db ↔
        k ∈ db.map (fun r => r.pres_or_congress) ∧ jsIncludes k "Congress" = false := by
    intro db k
    unfold presidentKeys
    rw [List.mem_insertionSort, List.mem_filter, mem_jsSetDedup]
    simp
  refine ⟨hmem, ?_, ?_, ?_⟩
  · intro db
    exact List.sorted_insertionSort strLeP _
  · intro db
    exact (List.perm_insertionSort _ _).nodup_iff.2 ((nodup_jsSetDedup _).filter _)
  · intro db k hk
    rw [hmem] at hk
    rw [hk.2]
    exact Bool.false_ne_true

/-- C5 witness: the spec's two-record example — `"Congress"` is excluded. -/
theorem claim5_president_keys_witness :
    ¬ jsIncludes "Theodore Roosevelt" "Congress" = true :=
  claim5_president_keys.2.2.2
    [⟨"Theodore Roosevelt", "Wyoming", some "9/24", some 1906⟩,
     ⟨"Congress", "Wyoming, Montana", some "6/8", some 1906⟩]
    "Theodore Roosevelt" (by decide)

theorem splitOnChar_of_no_sep (sep : Char) :
    ∀ cs : List Char, (∀ c ∈ cs, c ≠ sep) → splitOnChar sep cs = [cs] := by
  intro cs
  induction cs with
  | nil => intro _; rfl
  | cons c rest ih =>
    intro h
    have hc : c ≠ sep := h c (List.mem_cons_self c rest)
    rw [splitOnChar, if_neg hc, ih (fun x hx => h x (List.mem_cons_of_mem c hx))]

theorem trimChars_of_all_ws {cs : List Char} (h : ∀ c ∈ cs, isWS c = true) :
    trimChars cs = [] := by
  unfold trimChars
  rw [List.dropWhile_eq_nil_iff.2 h]
  rfl

theorem stateFragments_of_all_ws {s : String} (h : ∀ c ∈ s.toList, isWS c = true) :
    stateFragments s = [] := by
  unfold stateFragments
  have hnc : ∀ c ∈ s.toList, c ≠ ',' := by
    intro c hc he
    have := h c hc
    rw [he] at this
    exact absurd this (by decide)
  rw [splitOnChar_of_no_sep ',' s.toList hnc]
  rw [show (([s.toList].map trimChars) : List (List Char)) = [trimChars s.toList] from rfl]
  rw [trimChars_of_all_ws h]
  rfl

/-- C6: the state key list is exactly the union over all records of the
comma-split, trimmed, nonempty fragments of the `states` column, deduplicated
and sorted ascending; an empty or all-whitespace `states` value contributes no
fragments. -/
theorem claim6_state_keys :
    (∀ (db : List Monument) (k : String),
        k ∈ stateKeys db ↔ ∃ r ∈ db, k ∈ stateFragments r.states)
    ∧ (∀ db : List Monument, (stateKeys db).Sorted strLeP)
    ∧ (∀ db : List Monument, (stateKeys db).Nodup)
    ∧ (∀ s : String, (∀ c ∈ s.toList, isWS c = true) → stateFragments s = [])
    ∧ stateFragments "" = [] := by
  refine ⟨?_, ?_, ?_, fun s h => stateFragments_of_all_ws h, by decide⟩
  · intro db k
    unfold stateKeys
    rw [List.mem_insertionSort, mem_jsSetDedup, List.mem_flatMap]
  · intro db
    exact List.sorted_insertionSort strLeP _
  · intro db
    exact (List.perm_insertionSort _ _).nodup_iff.2 (nodup_jsSetDedup _)

/-- C6 witness: the spec's example — `"Wyoming, Montana"` contributes both
fragments, and a whitespace-only value contributes none. -/
theorem claim6_state_keys_witness :
    "Montana" ∈ stateKeys
        [⟨"Theodore Roosevelt", "Wyoming", some "9/24", some 1906⟩,
         ⟨"Congress", "Wyoming, Montana", some "6/8", some 1906⟩]
      ∧ stateFragments "  " = [] := by
  constructor
  · rw [(claim6_state_keys.1 _ "Montana")]
    exact ⟨⟨"Congress", "Wyoming, Montana", some "6/8", some 1906⟩,
      by decide, by decide⟩
  · exact claim6_state_keys.2.2.2.1 "  " (by decide)

theorem containsChars_nil (sub : List Char) :
    containsChars [] sub = startsWithChars [] sub := by
  unfold containsChars
  cases h : startsWithChars [] sub
  · rw [if_neg (by simp [h])]
  · rw [if_pos (by simp [h])]

theorem containsChars_cons (h : Char) (hs sub : List Char) :
    containsChars (h :: hs) sub =
      (startsWithChars (h :: hs) sub || containsChars hs sub) := by
  conv_lhs => rw [containsChars]
  cases hsw : startsWithChars (h :: hs) sub
  · rw [if_neg (by simp [hsw])]
    rfl
  · rw [if_pos (by simp [hsw])]
    rfl

theorem startsWithChars_map (f : Char → Char) :
    ∀ hay sub : List Char, startsWithChars hay sub = true →
      startsWithChars (hay.map f) (sub.map f) = true := by
  intro hay
  induction hay with
  | nil =>
    intro sub h
    cases sub with
    | nil => rfl
    | cons s ss => exact absurd h (by rw [startsWithChars]; simp)
  | cons c cs ih =>
    intro sub h
    cases sub with
    | nil => rfl
    | cons s ss =>
      rw [startsWithChars, Bool.and_eq_true, decide_eq_true_eq] at h
      rw [List.map_cons, List.map_cons, startsWithChars, Bool.and_eq_true,
        decide_eq_true_eq]
      exact ⟨by rw [h.1], ih ss h.2⟩

theorem containsChars_map (f : Char → Char) :
    ∀ hay sub : List Char, containsChars hay sub = true →
      containsChars (hay.map f) (sub.map f) = true := by
  intro hay
  induction hay with
  | nil =>
    intro sub h
    rw [containsChars_nil] at h
    rw [List.map_nil, containsChars_nil]
    exact startsWithChars_map f [] sub h
  | cons c cs ih =>
    intro sub h
    rw [containsChars_cons, Bool.or_eq_true] at h
    rw [List.map_cons, containsChars_cons, Bool.or_eq_true]
    rcases h with h | h
    · exact Or.inl (by simpa using startsWithChars_map f (c :: cs) sub h)
    · exact Or.inr (ih sub h)

/-- C7 counterexample: the state filter is not plain substring containment —
SQLite `LIKE` is ASCII-case-insensitive, so the key `"Idaho"` matches a record
whose `states` column is `"IDAHO"` even though `"Idaho"` does not occur as a
substring of `"IDAHO"`. -/
theorem claim7_counterexample :
    stateFilter [⟨"X", "IDAHO", none, none⟩] "Idaho" = [⟨"X", "IDAHO", none, none⟩]
      ∧ containsChars "IDAHO".toList "Idaho".toList = false :=
  ⟨by decide, by decide⟩

/-- C7 amended: `selectRecords` filters by exact equality for the president
and year dimensions, and by ASCII-case-insensitive substring containment
(SQLite `LIKE '%key%'`) for the state dimension; in particular any
case-sensitive substring occurrence matches, so the key `"Ida"` matches a
record whose region list is `"Idaho"`. -/
theorem claim7_amended :
    (∀ (db : List Monument) (k : String) (r : Monument),
        r ∈ presidentFilter db k ↔ r ∈ db ∧ r.pres_or_congress = k)
    ∧ (∀ (db : List Monument) (y : Int) (r : Monument),
        r ∈ yearFilter db y ↔ r ∈ db ∧ r.year = some y)
    ∧ (∀ (db : List Monument) (k : String) (r : Monument),
        r ∈ stateFilter db k ↔ r ∈ db ∧ sqlLikeContains r.states k = true)
    ∧ (∀ (db : List Monument) (k : String) (r : Monument), r ∈ db →
        containsChars r.states.toList k.toList = true → r ∈ stateFilter db k)
    ∧ stateFilter [⟨"X", "Idaho", none, none⟩] "Ida" =
        [⟨"X", "Idaho", none, none⟩] := by
  refine ⟨?_, ?_, ?_, ?_, by decide⟩
  · intro db k r
    rw [presidentFilter, List.mem_filter]
    simp
  · intro db y r
    rw [yearFilter, List.mem_filter]
    simp
  · intro db k r
    rw [stateFilter, List.mem_filter]
  · intro db k r hr hsub
    rw [stateFilter, List.mem_filter]
    refine ⟨hr, ?_⟩
    unfold sqlLikeContains
    exact containsChars_map asciiLower _ _ hsub

/-- C7 amended witness: `"Ida"` is a substring of `"Idaho"`, hence the record
is selected. -/
theorem claim7_amended_witness :
    (⟨"X", "Idaho", none, none⟩ : Monument) ∈
      stateFilter [⟨"X", "Idaho", none, none⟩] "Ida" :=
  claim7_amended.2.2.2.1 [⟨"X", "Idaho", none, none⟩] "Ida" _
    (List.mem_singleton.2 rfl) (by decide)

/-- C4: each dimension's `selectRecords` sorts its filtered rows newest-first
(descending linearized instants) as a permutation of the filter result; on the
spec's three-record example the order is 1908/9/24, 1906/12/3, 1906/1/11. -/
theorem claim4_select_sorted :
    (∀ (db : List Monument) (k : String), (selectPresident db k).Sorted newFirst
        ∧ (selectPresident db k).Perm (presidentFilter db k))
    ∧ (∀ (db : List Monument) (k : String), (selectState db k).Sorted newFirst
        ∧ (selectState db k).Perm (stateFilter db k))
    ∧ (∀ (db : List Monument) (y : Int), (selectYear db y).Sorted newFirst
        ∧ (selectYear db y).Perm (yearFilter db y))
    ∧ selectPresident
        [⟨"X", "Wyoming", some "9/24", some 1908⟩,
         ⟨"X", "Wyoming", some "1/11", some 1906⟩,
         ⟨"X", "Montana", some "12/3", some 1906⟩] "X" =
        [⟨"X", "Wyoming", some "9/24", some 1908⟩,
         ⟨"X", "Montana", some "12/3", some 1906⟩,
         ⟨"X", "Wyoming", some "1/11", some 1906⟩] := by
  refine ⟨?_, ?_, ?_, by decide⟩
  · intro db k
    exact ⟨List.sorted_insertionSort newFirst _, List.perm_insertionSort _ _⟩
  · intro db k
    exact ⟨List.sorted_insertionSort newFirst _, List.perm_insertionSort _ _⟩
  · intro db y
    exact ⟨List.sorted_insertionSort newFirst _, List.perm_insertionSort _ _⟩

theorem intRange_zero (a : Int) : intRange a 0 = [] := rfl

theorem intRange_succ_cons (a : Int) (n : Nat) :
    intRange a (n + 1) = a :: intRange (a + 1) n := by
  unfold intRange
  rw [List.range_succ_eq_map, List.map_cons, List.map_map]
  congr 1
  · simp
  · apply List.map_congr_left
    intro k _
    simp [Function.comp]
    ring

theorem intRange_succ_snoc (a : Int) (n : Nat) :
    intRange a (n + 1) = intRange a n ++ [a + n] := by
  unfold intRange
  rw [List.range_succ, List.map_append]
  rfl

theorem intRange_length (a : Int) (n : Nat) : (intRange a n).length = n := by
  simp [intRange]

theorem intRange_append (a : Int) (m k : Nat) :
    intRange a m ++ intRange (a + m) k = intRange a (m + k) := by
  induction m generalizing a with
  | zero =>
    rw [intRange_zero, List.nil_append]
    norm_num
  | succ m ih =>
    rw [intRange_succ_cons, List.cons_append,
      show (a : Int) + ((m : Nat) + 1 : Nat) = (a + 1) + (m : Nat) by push_cast; ring,
      ih (a + 1), show (m + 1 + k) = (m + k) + 1 by omega, intRange_succ_cons]

theorem intRange_getLast? (a : Int) (n : Nat) :
    (intRange a (n + 1)).getLast? = some (a + n) := by
  rw [intRange_succ_snoc]
  exact List.getLast?_concat _

theorem mem_intRange {a w : Int} {n : Nat} (h : w ∈ intRange a n) :
    a ≤ w ∧ w < a + n := by
  unfold intRange at h
  rcases List.mem_map.1 h with ⟨k, hk, rfl⟩
  have := List.mem_range.1 hk
  omega

theorem countLe_append (ys zs : List Int) (y : Int) :
    countLe (ys ++ zs) y = countLe ys y + countLe zs y := by
  simp [countLe, List.filter_append]

theorem countLe_singleton_of_le {z y : Int} (h : z ≤ y) : countLe [z] y = 1 := by
  simp [countLe, List.filter, h]

theorem countLe_singleton_of_gt {z y : Int} (h : ¬ z ≤ y) : countLe [z] y = 0 := by
  simp [countLe, List.filter, h]

theorem countLe_of_all {ys : List Int} {y : Int} (h : ∀ z ∈ ys, z ≤ y) :
    countLe ys y = ys.length := by
  unfold countLe
  rw [List.filter_eq_self.2 (fun z hz => by simpa using h z hz)]

theorem countLe_mono (ys : List Int) {y1 y2 : Int} (h : y1 ≤ y2) :
    countLe ys y1 ≤ countLe ys y2 := by
  induction ys with
  | nil => exact le_refl _
  | cons z zs ih =>
    show countLe (z :: zs) y1 ≤ countLe (z :: zs) y2
    rw [show (z :: zs) = [z] ++ zs from rfl, countLe_append, countLe_append]
    by_cases hz : z ≤ y1
    · rw [countLe_singleton_of_le hz, countLe_singleton_of_le (le_trans hz h)]
      omega
    · rw [countLe_singleton_of_gt hz]
      by_cases hz2 : z ≤ y2
      · rw [countLe_singleton_of_le hz2]
        omega
      · rw [countLe_singleton_of_gt hz2]
        omega

theorem countLe_perm {ys zs : List Int} (h : ys.Perm zs) (y : Int) :
    countLe ys y = countLe zs y :=
  (h.filter _).length_eq

/-- The state of the chart loop after processing a nondecreasing year prefix
with first year `y0`, last year `L`, and multiset of years `P`. -/
def stateOf (y0 L : Int) (P : List Int) : TLState :=
  { currentYear := L
    accum := P.length
    years := intRange y0 ((L - y0 + 1).toNat)
    yearCounts := (intRange y0 ((L - y0 + 1).toNat)).map (fun w => countLe P w) }

theorem fillToFuel_spec (target : Int) :
    ∀ (n : Nat) (st : TLState), st.currentYear + n = target →
      fillToFuel target n st =
        { currentYear := target
          accum := st.accum
          years := st.years ++ intRange (st.currentYear + 1) n
          yearCounts := st.yearCounts ++ List.replicate n st.accum } := by
  intro n
  induction n with
  | zero =>
    intro st h
    obtain ⟨cy, ac, ys, yc⟩ := st
    simp only [fillToFuel, intRange_zero, List.replicate_zero, List.append_nil]
    simp only at h
    rw [show target = cy by omega]
  | succ n ih =>
    intro st h
    obtain ⟨cy, ac, ys, yc⟩ := st
    simp only at h
    rw [fillToFuel, if_pos (show cy < target by omega)]
    rw [ih _ (by simp; omega)]
    simp only [List.append_assoc, List.singleton_append]
    rw [← intRange_succ_cons, List.replicate_succ]

theorem fillTo_spec (st : TLState) (target : Int) (h : st.currentYear ≤ target) :
    fillTo st target =
      { currentYear := target
        accum := st.accum
        years := st.years ++ intRange (st.currentYear + 1) (target - st.currentYear).toNat
        yearCounts := st.yearCounts ++
          List.replicate (target - st.currentYear).toNat st.accum } :=
  fillToFuel_spec target _ st (by omega)

theorem setLast_of_ne_nil {l : List Nat} (h : l ≠ []) (v : Nat) :
    setLast l v = l.dropLast ++ [v] := by
  cases l with
  | nil => exact absurd rfl h
  | cons x xs => rfl

theorem map_countLe_extend {P : List Int} {y : Int} (l : List Int)
    (hlt : ∀ w ∈ l, w < y) :
    l.map (fun w => countLe (P ++ [y]) w) = l.map (fun w => countLe P w) := by
  apply List.map_congr_left
  intro w hw
  rw [countLe_append, countLe_singleton_of_gt (by have := hlt w hw; omega)]
  omega

theorem TLState.ext4 {a b : TLState} (h1 : a.currentYear = b.currentYear)
    (h2 : a.accum = b.accum) (h3 : a.years = b.years)
    (h4 : a.yearCounts = b.yearCounts) : a = b := by
  cases a
  cases b
  simp only at h1 h2 h3 h4
  rw [h1, h2, h3, h4]

theorem tlStep_of_new_year {st : TLState} {y : Int} (h : st.years.getLast? ≠ some y) :
    tlStep st y =
      { currentYear := (fillTo st y).currentYear
        accum := (fillTo st y).accum + 1
        years := (fillTo st y).years
        yearCounts := setLast (fillTo st y).yearCounts ((fillTo st y).accum + 1) } := by
  simp only [tlStep]
  rw [if_pos h]

theorem tlStep_of_same_year {st : TLState} {y : Int} (h : ¬ st.years.getLast? ≠ some y) :
    tlStep st y =
      { currentYear := st.currentYear
        accum := st.accum + 1
        years := st.years
        yearCounts := setLast st.yearCounts (st.accum + 1) } := by
  simp only [tlStep]
  rw [if_neg h]

theorem tlStep_stateOf {P : List Int} {y0 L y : Int}
    (hne : P ≠ []) (hhead : P.head? = some y0) (hlast : P.getLast? = some L)
    (hall : ∀ z ∈ P, z ≤ L) (hy : L ≤ y) :
    tlStep (stateOf y0 L P) y = stateOf y0 y (P ++ [y]) := by
  have hy0mem : y0 ∈ P := by
    cases P with
    | nil => exact absurd rfl hne
    | cons p ps =>
      rw [List.head?_cons] at hhead
      exact (Option.some.inj hhead) ▸ List.mem_cons_self _ _
  have hy0L : y0 ≤ L := hall y0 hy0mem
  have hm1 : (L - y0 + 1).toNat = (L - y0).toNat + 1 := by omega
  have hyearsLast : (stateOf y0 L P).years.getLast? = some L := by
    show (intRange y0 ((L - y0 + 1).toNat)).getLast? = some L
    rw [hm1, intRange_getLast?]
    congr 1
    omega
  have hcountP : countLe P L = P.length := countLe_of_all hall
  by_cases hLy : L = y
  · -- same year: no fill, just bump the accumulator and overwrite the last count
    subst hLy
    rw [tlStep_of_same_year (by rw [hyearsLast]; simp)]
    apply TLState.ext4
    · rfl
    · show P.length + 1 = (P ++ [L]).length
      simp
    · rfl
    · show setLast ((intRange y0 ((L - y0 + 1).toNat)).map (fun w => countLe P w))
          (P.length + 1) =
        (intRange y0 ((L - y0 + 1).toNat)).map (fun w => countLe (P ++ [L]) w)
      rw [hm1, intRange_succ_snoc, List.map_append, List.map_append,
        List.map_singleton, List.map_singleton]
      rw [setLast_of_ne_nil (by simp) _, List.dropLast_concat]
      rw [map_countLe_extend (intRange y0 ((L - y0).toNat))
        (fun w hw => by have := mem_intRange hw; omega)]
      congr 1
      show [P.length + 1] = [countLe (P ++ [L]) (y0 + ((L - y0).toNat : Int))]
      rw [show y0 + ((L - y0).toNat : Int) = L by omega, countLe_append, hcountP,
        countLe_singleton_of_le (le_refl L)]
  · -- strictly newer year: fill the gap with the running total, then bump
    have hLlt : L < y := lt_of_le_of_ne hy hLy
    rw [tlStep_of_new_year (by rw [hyearsLast]; simp [hLy])]
    have hfill := fillTo_spec (stateOf y0 L P) y
      (show (stateOf y0 L P).currentYear ≤ y from hy)
    rw [hfill]
    have hcy : (stateOf y0 L P).currentYear = L := rfl
    have hac : (stateOf y0 L P).accum = P.length := rfl
    have hys : (stateOf y0 L P).years = intRange y0 ((L - y0 + 1).toNat) := rfl
    have hyc : (stateOf y0 L P).yearCounts =
        (intRange y0 ((L - y0 + 1).toNat)).map (fun w => countLe P w) := rfl
    apply TLState.ext4
    · rfl
    · show P.length + 1 = (P ++ [y]).length
      simp
    · show (stateOf y0 L P).years ++ intRange ((stateOf y0 L P).currentYear + 1)
          (y - (stateOf y0 L P).currentYear).toNat = intRange y0 ((y - y0 + 1).toNat)
      rw [hys, hcy]
      rw [show (L + 1 : Int) = y0 + (((L - y0 + 1).toNat : Nat) : Int) by omega]
      rw [intRange_append]
      congr 1
      omega
    · show setLast ((stateOf y0 L P).yearCounts ++
          List.replicate (y - (stateOf y0 L P).currentYear).toNat (stateOf y0 L P).accum)
          (P.length + 1) =
        (intRange y0 ((y - y0 + 1).toNat)).map (fun w => countLe (P ++ [y]) w)
      rw [hyc, hcy, hac]
      set m1 := (L - y0 + 1).toNat with hm1def
      set k := (y - L).toNat with hkdef
      have hk1 : k = (k - 1) + 1 := by omega
      -- left side: drop the last filled count and append the bumped total
      rw [setLast_of_ne_nil (by rw [hm1, intRange_succ_cons]; simp) _]
      rw [hk1, List.replicate_succ', ← List.append_assoc, List.dropLast_concat]
      -- right side: split the target range into old years, gap years, and y
      have hsplit : (y - y0 + 1).toNat = (m1 + (k - 1)) + 1 := by omega
      rw [hsplit, intRange_succ_snoc, ← intRange_append]
      rw [show y0 + ((m1 : Nat) : Int) = L + 1 by omega]
      rw [List.map_append, List.map_append]
      have hgap : (intRange (L + 1) (k - 1)).map (fun w => countLe (P ++ [y]) w) =
          List.replicate (k - 1) P.length := by
        have hrep := List.eq_replicate_of_mem
          (l := (intRange (L + 1) (k - 1)).map (fun w => countLe (P ++ [y]) w))
          (a := P.length) ?_
        · rw [List.length_map, intRange_length] at hrep
          exact hrep
        · intro b hb
          rcases List.mem_map.1 hb with ⟨w, hw, rfl⟩
          have hwb := mem_intRange hw
          rw [countLe_append, countLe_singleton_of_gt (by omega)]
          rw [countLe_of_all (fun z hz => le_trans (hall z hz) (by omega))]
          omega
      have hold : (intRange y0 m1).map (fun w => countLe (P ++ [y]) w) =
          (intRange y0 m1).map (fun w => countLe P w) :=
        map_countLe_extend _ (fun w hw => by have := mem_intRange hw; omega)
      have hlastelt : countLe (P ++ [y]) (y0 + (((m1 + (k - 1)) : Nat) : Int)) =
          P.length + 1 := by
        rw [show y0 + (((m1 + (k - 1)) : Nat) : Int) = y by omega]
        rw [countLe_append, countLe_singleton_of_le (le_refl y)]
        rw [countLe_of_all (fun z hz => le_trans (hall z hz) (by omega))]
      rw [hgap, hold, List.map_singleton, hlastelt]

theorem foldl_tlStep_stateOf :
    ∀ (Q P : List Int) (y0 L : Int),
      P ≠ [] → P.head? = some y0 → P.getLast? = some L → (∀ z ∈ P, z ≤ L) →
      (L :: Q).Chain' (· ≤ ·) →
      ∃ M, (P ++ Q).getLast? = some M ∧ (∀ z ∈ P ++ Q, z ≤ M) ∧
        Q.foldl tlStep (stateOf y0 L P) = stateOf y0 M (P ++ Q) := by
  intro Q
  induction Q with
  | nil =>
    intro P y0 L hne hh hl hall _
    exact ⟨L, by simpa using hl, by simpa using hall, by simp⟩
  | cons q Q ih =>
    intro P y0 L hne hh hl hall hchain
    have hLq : L ≤ q := (List.chain'_cons.1 hchain).1
    have hstep := tlStep_stateOf hne hh hl hall hLq
    have hh2 : (P ++ [q]).head? = some y0 := by
      cases P with
      | nil => exact absurd rfl hne
      | cons p ps => simpa using hh
    have hl2 : (P ++ [q]).getLast? = some q := List.getLast?_concat _
    have hall2 : ∀ z ∈ P ++ [q], z ≤ q := by
      intro z hz
      rcases List.mem_append.1 hz with h | h
      · exact le_trans (hall z h) hLq
      · exact le_of_eq (List.mem_singleton.1 h)
    have hne2 : P ++ [q] ≠ [] := by simp
    have hchain2 : (q :: Q).Chain' (· ≤ ·) := (List.chain'_cons.1 hchain).2
    obtain ⟨M, h1, h2, h3⟩ := ih (P ++ [q]) y0 q hne2 hh2 hl2 hall2 hchain2
    have happ : (P ++ [q]) ++ Q = P ++ q :: Q := by simp
    refine ⟨M, ?_, ?_, ?_⟩
    · rw [← happ]
      exact h1
    · intro z hz
      apply h2
      rw [happ]
      exact hz
    · rw [List.foldl_cons, hstep, ← happ]
      exact h3

theorem zip_self_map {α β : Type} (l : List α) (f : α → β) :
    l.zip (l.map f) = l.map (fun a => (a, f a)) := by
  induction l with
  | nil => rfl
  | cons x xs ih => simp [ih]

theorem tlStep_init (y0 : Int) :
    tlStep ⟨y0 - 1, 0, [], []⟩ y0 = stateOf y0 y0 [y0] := by
  rw [tlStep_of_new_year (by simp)]
  rw [fillTo_spec ⟨y0 - 1, 0, [], []⟩ y0 (by show y0 - 1 ≤ y0; omega)]
  apply TLState.ext4
  · rfl
  · show 0 + 1 = ([y0] : List Int).length
    simp
  · show [] ++ intRange (y0 - 1 + 1) (y0 - (y0 - 1)).toNat =
      intRange y0 ((y0 - y0 + 1).toNat)
    rw [List.nil_append]
    congr 1
    · omega
    · omega
  · show setLast ([] ++ List.replicate (y0 - (y0 - 1)).toNat 0) (0 + 1) =
      (intRange y0 ((y0 - y0 + 1).toNat)).map (fun w => countLe [y0] w)
    rw [List.nil_append, show (y0 - (y0 - 1)).toNat = 1 by omega,
      show (y0 - y0 + 1).toNat = 1 by omega]
    rw [show intRange y0 1 = y0 :: intRange (y0 + 1) 0 from intRange_succ_cons y0 0,
      intRange_zero]
    rw [List.map_singleton, countLe_singleton_of_le (le_refl y0)]
    rfl

theorem timelineLoop_spec (y0 : Int) (t : List Int)
    (hchain : (y0 :: t).Chain' (· ≤ ·)) :
    ∃ M, (y0 :: t).getLast? = some M ∧ (∀ z ∈ y0 :: t, z ≤ M) ∧
      timelineLoop (y0 :: t) =
        (intRange y0 ((M - y0 + 1).toNat)).map (fun w => (w, countLe (y0 :: t) w)) := by
  obtain ⟨M, h1, h2, h3⟩ := foldl_tlStep_stateOf t [y0] y0 y0 (by simp) rfl rfl
    (by intro z hz; rw [List.mem_singleton.1 hz]) hchain
  refine ⟨M, by simpa using h1, by simpa using h2, ?_⟩
  have h3b : List.foldl tlStep (stateOf y0 y0 [y0]) t = stateOf y0 M (y0 :: t) := by
    rw [show ([y0] : List Int) ++ t = y0 :: t from rfl] at h3
    exact h3
  show (((y0 :: t).foldl tlStep ⟨y0 - 1, 0, [], []⟩).years).zip
      (((y0 :: t).foldl tlStep ⟨y0 - 1, 0, [], []⟩).yearCounts) = _
  rw [List.foldl_cons, tlStep_init, h3b]
  show (intRange y0 ((M - y0 + 1).toNat)).zip
      ((intRange y0 ((M - y0 + 1).toNat)).map (fun w => countLe (y0 :: t) w)) = _
  rw [zip_self_map]

/-- With a nonempty filter result and non-NULL dates, the home route reaches
the chart loop over the sorted year sequence. -/
theorem cumulativeTimeline_eq_loop (records : List Monument)
    (hne : records.filter (fun r => 0 < rawYear r) ≠ [])
    (hdate : ∀ r ∈ records.filter (fun r => 0 < rawYear r), r.date.isSome = true) :
    cumulativeTimeline records = some (timelineLoop (sortedYears records)) := by
  unfold cumulativeTimeline sortedYears
  rcases hd : records.filter (fun r => 0 < rawYear r) with _ | ⟨r, rest⟩
  · exact absurd hd hne
  · rcases rest with _ | ⟨r2, rest2⟩
    · rfl
    · rw [hd] at hdate
      have hany : (r :: r2 :: rest2).any (fun x => x.date.isNone) = false := by
        rw [List.any_eq_false]
        intro x hx
        have hs := hdate x hx
        cases hxd : x.date with
        | none => rw [hxd] at hs; exact absurd hs (by simp)
        | some d => simp [hxd]
      dsimp only
      rw [if_neg (by rw [hany]; exact Bool.false_ne_true)]

/-- C8 counterexample: with records of years 1000 and 5 (both positive), the
JS `Date` two-digit-year rule sorts year 5 as 1905, so the chart loop emits
the single pair `(1000, 2)`: the minimum year present (5) gets no pair, the
range 5..1000 is not covered, and the count at year 1000 is 2 although the
claim's prefix counting would demand a pair per year. -/
theorem claim8_counterexample :
    cumulativeTimeline
        [⟨"X", "", some "1/1", some 1000⟩, ⟨"X", "", some "1/1", some 5⟩] =
      some [(1000, 2)]
      ∧ (5 : Int) ∈ (([⟨"X", "", some "1/1", some 1000⟩,
          ⟨"X", "", some "1/1", some 5⟩] : List Monument).filter
            (fun r => 0 < rawYear r)).map rawYear
      ∧ ∀ p ∈ [((1000 : Int), (2 : Nat))], p.1 ≠ 5 :=
  ⟨by decide, by decide, by decide⟩

/-- C8 amended: provided the chronological ascending sort yields a
nondecreasing year sequence (true whenever years are ≥ 100 and dates stay in
their year; violated only through JS `Date` quirks) and all dates are
non-NULL, the home chart contains exactly one `(year, count)` pair for every
integer year from the minimum to the maximum year present, where each count
is the number of filtered records with year at most that calendar year; the
counts are monotonically non-decreasing. -/
theorem claim8_amended (records : List Monument)
    (hne : sortedYears records ≠ [])
    (hdate : ∀ r ∈ records.filter (fun r => 0 < rawYear r), r.date.isSome = true)
    (hchain : (sortedYears records).Chain' (· ≤ ·)) :
    ∃ y0 M,
      (sortedYears records).head? = some y0
      ∧ (sortedYears records).getLast? = some M
      ∧ y0 ∈ sortedYears records ∧ M ∈ sortedYears records
      ∧ (∀ z ∈ sortedYears records, y0 ≤ z ∧ z ≤ M)
      ∧ (∀ w : Int, countLe (sortedYears records) w =
          countLe ((records.filter (fun r => 0 < rawYear r)).map rawYear) w)
      ∧ cumulativeTimeline records =
          some ((intRange y0 ((M - y0 + 1).toNat)).map
            (fun w => (w, countLe (sortedYears records) w)))
      ∧ (∀ p ∈ (intRange y0 ((M - y0 + 1).toNat)).map
              (fun w => (w, countLe (sortedYears records) w)),
          ∀ q ∈ (intRange y0 ((M - y0 + 1).toNat)).map
              (fun w => (w, countLe (sortedYears records) w)),
            p.1 ≤ q.1 → p.2 ≤ q.2) := by
  obtain ⟨y0, t, hyt⟩ := List.exists_cons_of_ne_nil hne
  have hfilterne : records.filter (fun r => 0 < rawYear r) ≠ [] := by
    intro h
    apply hne
    unfold sortedYears
    rw [h]
    rfl
  obtain ⟨M, h1, h2, h3⟩ := timelineLoop_spec y0 t (hyt ▸ hchain)
  refine ⟨y0, M, ?_, ?_, ?_, ?_, ?_, ?_, ?_, ?_⟩
  · rw [hyt]
    rfl
  · rw [hyt]
    exact h1
  · rw [hyt]
    exact List.mem_cons_self _ _
  · rw [hyt]
    exact List.mem_of_mem_getLast? h1
  · have hpair : (sortedYears records).Pairwise (· ≤ ·) :=
      List.chain'_iff_pairwise.1 hchain
    intro z hz
    constructor
    · rw [hyt] at hpair hz
      rcases List.mem_cons.1 hz with h | h
      · exact le_of_eq h.symm
      · exact (List.pairwise_cons.1 hpair).1 z h
    · rw [hyt] at hz
      exact h2 z hz
  · intro w
    exact countLe_perm ((List.perm_insertionSort oldFirst _).map rawYear) w
  · rw [cumulativeTimeline_eq_loop records hfilterne hdate, hyt, h3]
  · intro p hp q hq hpq
    rcases List.mem_map.1 hp with ⟨w1, hw1, rfl⟩
    rcases List.mem_map.1 hq with ⟨w2, hw2, rfl⟩
    exact countLe_mono _ hpq

/-- C8 amended witness: three records with sane dates (years 1905, 1905,
1907) — the hypotheses hold by computation and the theorem applies. -/
theorem claim8_amended_witness :
    ∃ y0 M,
      (sortedYears [⟨"X", "", some "1/1", some 1907⟩, ⟨"X", "", some "1/1", some 1905⟩,
          ⟨"X", "", some "6/8", some 1905⟩]).head? = some y0
      ∧ (sortedYears [⟨"X", "", some "1/1", some 1907⟩, ⟨"X", "", some "1/1", some 1905⟩,
          ⟨"X", "", some "6/8", some 1905⟩]).getLast? = some M
      ∧ y0 ∈ sortedYears [⟨"X", "", some "1/1", some 1907⟩, ⟨"X", "", some "1/1", some 1905⟩,
          ⟨"X", "", some "6/8", some 1905⟩]
      ∧ M ∈ sortedYears [⟨"X", "", some "1/1", some 1907⟩, ⟨"X", "", some "1/1", some 1905⟩,
          ⟨"X", "", some "6/8", some 1905⟩]
      ∧ (∀ z ∈ sortedYears [⟨"X", "", some "1/1", some 1907⟩, ⟨"X", "", some "1/1", some 1905⟩,
          ⟨"X", "", some "6/8", some 1905⟩], y0 ≤ z ∧ z ≤ M)
      ∧ (∀ w : Int, countLe (sortedYears [⟨"X", "", some "1/1", some 1907⟩,
            ⟨"X", "", some "1/1", some 1905⟩, ⟨"X", "", some "6/8", some 1905⟩]) w =
          countLe ((([⟨"X", "", some "1/1", some 1907⟩, ⟨"X", "", some "1/1", some 1905⟩,
            ⟨"X", "", some "6/8", some 1905⟩] : List Monument).filter
              (fun r => 0 < rawYear r)).map rawYear) w)
      ∧ cumulativeTimeline [⟨"X", "", some "1/1", some 1907⟩, ⟨"X", "", some "1/1", some 1905⟩,
            ⟨"X", "", some "6/8", some 1905⟩] =
          some ((intRange y0 ((M - y0 + 1).toNat)).map
            (fun w => (w, countLe (sortedYears [⟨"X", "", some "1/1", some 1907⟩,
              ⟨"X", "", some "1/1", some 1905⟩, ⟨"X", "", some "6/8", some 1905⟩]) w)))
      ∧ (∀ p ∈ (intRange y0 ((M - y0 + 1).toNat)).map
              (fun w => (w, countLe (sortedYears [⟨"X", "", some "1/1", some 1907⟩,
                ⟨"X", "", some "1/1", some 1905⟩, ⟨"X", "", some "6/8", some 1905⟩]) w)),
          ∀ q ∈ (intRange y0 ((M - y0 + 1).toNat)).map
              (fun w => (w, countLe (sortedYears [⟨"X", "", some "1/1", some 1907⟩,
                ⟨"X", "", some "1/1", some 1905⟩, ⟨"X", "", some "6/8", some 1905⟩]) w)),
            p.1 ≤ q.1 → p.2 ≤ q.2) :=
  claim8_amended
    [⟨"X", "", some "1/1", some 1907⟩, ⟨"X", "", some "1/1", some 1905⟩,
     ⟨"X", "", some "6/8", some 1905⟩]
    (by decide) (by decide)
    (by
      rw [show sortedYears [⟨"X", "", some "1/1", some 1907⟩,
          ⟨"X", "", some "1/1", some 1905⟩, ⟨"X", "", some "6/8", some 1905⟩] =
          [1905, 1905, 1907] by decide]
      exact List.chain'_cons.2 ⟨by norm_num,
        List.chain'_cons.2 ⟨by norm_num, List.chain'_singleton _⟩⟩)

example : splitOnChar ',' "a,b".toList = ["a".toList, "b".toList] := by decide
example : splitOnChar ',' "".toList = [[]] := by decide
example : jsIncludes "108th Congress" "Congress" = true := by decide
example : sqlLikeContains "IDAHO" "Idaho" = true := by decide
example : jsNumberChars " 12 ".toList = some 12 := by decide
example : jsNumberChars "".toList = some 0 := by decide
example : jsNumberChars "1a".toList = none := by decide
example : jsDateNum 1970 0 1 - jsDateNum 1969 11 31 = 1 := by decide
example : jsDateNum 5 0 1 = jsDateNum 1905 0 1 := by decide
example : jsDateNum 1906 12 1 = jsDateNum 1907 0 1 := by decide

-- scratch checks
example :
    selectPresident
      [⟨"X", "Wyoming", some "9/24", some 1908⟩,
       ⟨"X", "Wyoming", some "1/11", some 1906⟩,
       ⟨"X", "Montana", some "12/3", some 1906⟩] "X" =
      [⟨"X", "Wyoming", some "9/24", some 1908⟩,
       ⟨"X", "Montana", some "12/3", some 1906⟩,
       ⟨"X", "Wyoming", some "1/11", some 1906⟩] := by decide

example :
    cumulativeTimeline
      [⟨"X", "", some "1/1", some 1000⟩, ⟨"X", "", some "1/1", some 5⟩] =
      some [(1000, 2)] := by decide

example :
    cumulativeTimeline
      [⟨"X", "", some "1/1", some 1907⟩, ⟨"X", "", some "1/1", some 1905⟩,
       ⟨"X", "", some "6/8", some 1905⟩] =
      some [(1905, 2), (1906, 2), (1907, 3)] := by decide

example : yearKeys [⟨"X", "", none, some 0⟩] = [some 0] := by decide

example : neighbors ["Ann", "Bob", "Cal"] "Bob" = (some "Ann", some "Cal") := by decide
example : neighbors ["Ann", "Bob", "Cal"] "Zed" = (some "Bob", some "Ann") := by decide
example : neighbors ["Ann"] "Ann" = (some "Ann", some "Ann") := by decide
example : presidentKeys
    [⟨"Theodore Roosevelt", "Wyoming", some "9/24", some 1906⟩,
     ⟨"Congress", "Wyoming, Montana", some "6/8", some 1906⟩] =
    ["Theodore Roosevelt"] := by decide
example : stateKeys
    [⟨"Theodore Roosevelt", "Wyoming", some "9/24", some 1906⟩,
     ⟨"Congress", "Wyoming, Montana", some "6/8", some 1906⟩] =
    ["Montana", "Wyoming"] := by decide
example : stateFilter [⟨"X", "IDAHO", none, none⟩] "Idaho" =
    [⟨"X", "IDAHO", none, none⟩] := by decide
example : stateFragments "" = [] := by decide
example : stateFragments "  " = [] := by decide
